import Mathlib

/-!
A verification development for the `sitemeta` Go package (omidnikrah/go-sitemeta).

The package fetches a web page (statically over HTTP, with a headless-browser
fallback) and extracts title / description / image metadata from the parsed
HTML head.  We shallowly embed:

* the slice of Go's `net/url` standard library that `sitemeta.go` relies on
  (`url.Parse`, `URL.IsAbs`, `URL.Parse` / `ResolveReference`, `URL.String`),
  translated from the Go standard library sources, with percent-escaping
  modelled as the identity (all inputs considered here are plain ASCII without
  percent escapes) and host validation modelled as always succeeding;
* the HTML node tree (`golang.org/x/net/html.Node`) as a rose tree;
* every pure function of `sitemeta.go` (`findHeadTag`, `findTitleTag`,
  `findMetaTags`, `extractDescription`, `extractImage`, `resolveImageURL`,
  `parseSiteMeta`);
* the orchestration `Client.GetSiteMeta`, with the two effectful fetchers
  (`fetchHTML` for the static HTTP path and `renderDOMWithChrome` for the
  browser path) abstracted as oracles `String → Except String Node`, exactly
  as they are consumed by the orchestrator.
-/

namespace SiteMetaModel

/-! ## Model of Go `net/url` (the slice used by `sitemeta.go`) -/

namespace NetURL

/-- Scheme characters accepted anywhere: ASCII letters (Go `getScheme`). -/
def isSchemeAlpha (c : Char) : Bool :=
  ('a' ≤ c && c ≤ 'z') || ('A' ≤ c && c ≤ 'Z')

/-- Scheme characters accepted after the first: digits and `+ - .` (Go `getScheme`). -/
def isSchemeExtra (c : Char) : Bool :=
  ('0' ≤ c && c ≤ '9') || c == '+' || c == '-' || c == '.'

/-- Loop of Go `net/url.getScheme`: scans `rawURL` for a `scheme:` prefix.
`orig` is the whole input, `i` the current index, the list the remaining
characters. -/
def getSchemeAux (orig : String) : Nat → List Char → Except String (String × String)
  | _, [] => Except.ok ("", orig)
  | i, c :: rest =>
    if isSchemeAlpha c then getSchemeAux orig (i + 1) rest
    else if isSchemeExtra c then
      if i = 0 then Except.ok ("", orig) else getSchemeAux orig (i + 1) rest
    else if c == ':' then
      if i = 0 then Except.error "missing protocol scheme"
      else Except.ok (String.mk (orig.data.take i), String.mk (orig.data.drop (i + 1)))
    else Except.ok ("", orig)

/-- Go `net/url.getScheme`: split a leading `scheme:` off `rawURL`.  Returns
`(scheme, rest)`; errors only on a leading `:`. -/
def getScheme (rawURL : String) : Except String (String × String) :=
  getSchemeAux rawURL 0 rawURL.data

/-- Go `net/url.split(s, sep, cutc)`: cut `s` at the first occurrence of
`sep`; `cutc` drops the separator from the second half. -/
def splitOnce (s : String) (sep : Char) (cutc : Bool) : String × String :=
  match s.data.findIdx? (fun c => c == sep) with
  | none => (s, "")
  | some i =>
    (String.mk (s.data.take i), String.mk (s.data.drop (if cutc then i + 1 else i)))

/-- Go `net/url.stringContainsCTLByte`: any byte below 0x20 or equal to 0x7f. -/
def stringContainsCTL (s : String) : Bool :=
  s.data.any (fun c => c.toNat < 0x20 || c.toNat == 0x7f)

/-- Lowercase one ASCII letter (the only characters a scheme can hold). -/
def lowerChar (c : Char) : Char :=
  if 'A' ≤ c && c ≤ 'Z' then Char.ofNat (c.toNat + 32) else c

/-- Go `strings.ToLower`, restricted to ASCII as scheme strings are. -/
def toLowerStr (s : String) : String := String.mk (s.data.map lowerChar)

/-- Character-list prefix test (Go `strings.HasPrefix`). -/
def hasPrefixChars : List Char → List Char → Bool
  | _, [] => true
  | [], _ :: _ => false
  | c :: cs, p :: ps => c == p && hasPrefixChars cs ps

/-- Go `strings.HasPrefix`. -/
def hasPrefixStr (s p : String) : Bool := hasPrefixChars s.data p.data

/-- Helper loop for `splitOnChar`: `acc` holds the current segment reversed. -/
def splitOnCharAux (sep : Char) : List Char → List Char → List String
  | [], acc => [String.mk acc.reverse]
  | c :: cs, acc =>
    if c == sep then String.mk acc.reverse :: splitOnCharAux sep cs []
    else splitOnCharAux sep cs (c :: acc)

/-- Split a string at every occurrence of `sep` (the segment sequence the
`strings.Cut` loop of Go `resolvePath` walks through). -/
def splitOnChar (s : String) (sep : Char) : List String :=
  splitOnCharAux sep s.data []

/-- Index of the last occurrence of `sep` in `l` (Go `strings.LastIndex` for a
single byte). -/
def lastIdxCharAux (sep : Char) : List Char → Nat → Option Nat → Option Nat
  | [], _, acc => acc
  | c :: rest, i, acc => lastIdxCharAux sep rest (i + 1) (if c == sep then some i else acc)

/-- Index of the last occurrence of `sep` in `l`, if any. -/
def lastIdxChar (l : List Char) (sep : Char) : Option Nat :=
  lastIdxCharAux sep l 0 none

/-- Go `net/url.URL`, restricted to the fields the `sitemeta` code can ever
observe.  `opaq` is Go's `Opaque`; `user` is Go's `User` (modelled as the raw
userinfo string).  Percent-escaping is modelled as the identity, so Go's
`RawPath`/`RawFragment` collapse into `path`/`fragment`. -/
structure URL where
  scheme : String := ""
  opaq : String := ""
  user : Option String := none
  host : String := ""
  path : String := ""
  forceQuery : Bool := false
  rawQuery : String := ""
  fragment : String := ""
deriving Repr, DecidableEq

/-- Go `URL.IsAbs`: a URL is absolute iff it has a scheme. -/
def URL.isAbs (u : URL) : Bool := u.scheme != ""

/-- Go `net/url.parseAuthority`, with host validation modelled as always
succeeding: split userinfo from host at the last `@`. -/
def parseAuthority (authority : String) : Option String × String :=
  match lastIdxChar authority.data '@' with
  | none => (none, authority)
  | some i =>
    (some (String.mk (authority.data.take i)), String.mk (authority.data.drop (i + 1)))

/-- Go `net/url.parse(rawURL, viaRequest=false)` — the fragment-free part of
`url.Parse`.  Faithful to the Go source in its control flow: control-byte
check, `*` special case, scheme split, query split (including `ForceQuery`),
opaque rootless paths, the no-colon check on the first path segment of
scheme-less URLs, and the `//authority` split.  Percent-escape validation
(`setPath`) is modelled as the identity. -/
def parseURL (rawURL : String) : Except String URL :=
  if stringContainsCTL rawURL then
    Except.error "net/url: invalid control character in URL"
  else if rawURL == "*" then Except.ok { path := "*" }
  else
    match getScheme rawURL with
    | Except.error e => Except.error e
    | Except.ok (scheme0, rest0) =>
      let scheme := toLowerStr scheme0
      let restFQ :=
        if rest0.data.getLast? == some '?' && !((rest0.data.dropLast).contains '?') then
          (String.mk rest0.data.dropLast, true, "")
        else
          let rq := splitOnce rest0 '?' true
          (rq.1, false, rq.2)
      let rest1 := restFQ.1
      let forceQuery := restFQ.2.1
      let rawQuery := restFQ.2.2
      if !(hasPrefixStr rest1 "/") && scheme != "" then
        Except.ok { scheme := scheme, opaq := rest1, forceQuery := forceQuery,
                    rawQuery := rawQuery }
      else if !(hasPrefixStr rest1 "/") && (splitOnce rest1 '/' false).1.data.contains ':' then
        Except.error "first path segment in URL cannot contain colon"
      else if (scheme != "" || !(hasPrefixStr rest1 "///")) && hasPrefixStr rest1 "//" then
        let ar := splitOnce (String.mk (rest1.data.drop 2)) '/' false
        let uh := parseAuthority ar.1
        Except.ok { scheme := scheme, user := uh.1, host := uh.2, path := ar.2,
                    forceQuery := forceQuery, rawQuery := rawQuery }
      else
        Except.ok { scheme := scheme, path := rest1, forceQuery := forceQuery,
                    rawQuery := rawQuery }

/-- Go `net/url.Parse`: split the fragment off, parse the rest, then attach
the fragment (fragment unescaping modelled as the identity, so `setFragment`
never fails). -/
def parse (rawURL : String) : Except String URL :=
  let uf := splitOnce rawURL '#' true
  match parseURL uf.1 with
  | Except.error e => Except.error e
  | Except.ok u => if uf.2 == "" then Except.ok u else Except.ok { u with fragment := uf.2 }

/-- Segment loop of Go `net/url.resolvePath`: `dst` starts as `['/']`,
`first` tracks whether a segment has been emitted yet. -/
def resolveSegs : List String → List Char → Bool → List Char
  | [], dst, _ => dst
  | e :: es, dst, first =>
    if e == "." then resolveSegs es dst false
    else if e == ".." then
      let str := dst.drop 1
      match lastIdxChar str '/' with
      | none => resolveSegs es ['/'] true
      | some i => resolveSegs es ('/' :: str.take i) first
    else
      let dst1 := if first then dst else dst ++ ['/']
      resolveSegs es (dst1 ++ e.data) false

/-- Go `net/url.resolvePath(base, ref)`: RFC 3986 merge-and-dot-segment
removal, translated statement by statement from the Go source. -/
def resolvePath (base ref : String) : String :=
  let full :=
    if ref == "" then base
    else if ref.data.head? != some '/' then
      match lastIdxChar base.data '/' with
      | some i => String.mk (base.data.take (i + 1)) ++ ref
      | none => ref
    else ref
  if full == "" then ""
  else
    let elems := splitOnChar full '/'
    let dst := resolveSegs elems ['/'] true
    let dst1 :=
      if elems.getLast? == some "." || elems.getLast? == some ".." then dst ++ ['/'] else dst
    let r := if dst1.length > 1 && dst1.get? 1 == some '/' then dst1.drop 1 else dst1
    String.mk r

/-- Go `URL.ResolveReference(ref)`: RFC 3986 reference resolution, translated
from the Go source (with `EscapedPath` modelled as `path`). -/
def resolveReference (u ref : URL) : URL :=
  let url0 := if ref.scheme == "" then { ref with scheme := u.scheme } else ref
  if ref.scheme != "" || ref.host != "" || ref.user.isSome then
    { url0 with path := resolvePath ref.path "" }
  else if ref.opaq != "" then
    { url0 with user := none, host := "", path := "" }
  else
    let url1 :=
      if ref.path == "" && !ref.forceQuery && ref.rawQuery == "" then
        let u2 := { url0 with rawQuery := u.rawQuery }
        if ref.fragment == "" then { u2 with fragment := u.fragment } else u2
      else url0
    { url1 with host := u.host, user := u.user, path := resolvePath u.path ref.path }

/-- Go `URL.Parse(ref)` (the method): parse `ref` and resolve it against `u`. -/
def parseRef (u : URL) (ref : String) : Except String URL :=
  match parse ref with
  | Except.error e => Except.error e
  | Except.ok refURL => Except.ok (resolveReference u refURL)

/-- Go `URL.String()`: reassemble the URL, translated from the Go source
(escaping modelled as the identity; `OmitHost` never set in this model since
the code under study never produces `scheme:///path` inputs). -/
def toString (u : URL) : String :=
  let buf := if u.scheme != "" then u.scheme ++ ":" else ""
  let buf :=
    if u.opaq != "" then buf ++ u.opaq
    else
      let buf :=
        if u.scheme != "" || u.host != "" || u.user.isSome then
          let buf := if u.host != "" || u.path != "" || u.user.isSome then buf ++ "//" else buf
          let buf :=
            match u.user with
            | some ui => buf ++ ui ++ "@"
            | none => buf
          buf ++ u.host
        else buf
      let buf :=
        if u.path != "" && u.path.data.head? != some '/' && u.host != "" then buf ++ "/"
        else buf
      let buf :=
        if buf == "" && ((splitOnce u.path '/' false).1.data.contains ':') then buf ++ "./"
        else buf
      buf ++ u.path
  let buf := if u.forceQuery || u.rawQuery != "" then buf ++ "?" ++ u.rawQuery else buf
  if u.fragment != "" then buf ++ "#" ++ u.fragment else buf

end NetURL

/-! ## Model of `golang.org/x/net/html` nodes -/

/-- One HTML attribute (`html.Attribute`, namespace ignored as the code never
reads it). -/
structure Attribute where
  key : String
  val : String
deriving Repr, DecidableEq

/-- `html.NodeType`, restricted to the constructors the code distinguishes. -/
inductive NodeType where
  | errorNode
  | textNode
  | documentNode
  | elementNode
  | commentNode
  | doctypeNode
deriving Repr, DecidableEq

/-- `html.Node` as a rose tree: the Go `FirstChild`/`NextSibling` pointers
become the `children` list. -/
inductive Node where
  | mk (type : NodeType) (data : String) (attr : List Attribute) (children : List Node)

/-- The node's type (`html.Node.Type`). -/
def Node.type : Node → NodeType
  | .mk t _ _ _ => t

/-- The node's data: tag name for elements, text for text nodes
(`html.Node.Data`). -/
def Node.data : Node → String
  | .mk _ d _ _ => d

/-- The node's attributes (`html.Node.Attr`). -/
def Node.attr : Node → List Attribute
  | .mk _ _ a _ => a

/-- The node's children, first child first. -/
def Node.children : Node → List Node
  | .mk _ _ _ c => c

mutual

/-- `Client.findHeadTag`: return the node itself if it is a `head` element,
else search the children depth-first, first match wins. -/
def findHeadTag : Node → Option Node
  | .mk t d a c =>
    if t = NodeType.elementNode ∧ d = "head" then some (Node.mk t d a c)
    else findHeadTagList c

/-- The Go `for child := node.FirstChild; ...` loop of `findHeadTag`. -/
def findHeadTagList : List Node → Option Node
  | [] => none
  | n :: ns =>
    match findHeadTag n with
    | some h => some h
    | none => findHeadTagList ns

end

mutual

/-- `Client.findTitleTag`: depth-first search for the first `title` element. -/
def findTitleTag : Node → Option Node
  | .mk t d a c =>
    if t = NodeType.elementNode ∧ d = "title" then some (Node.mk t d a c)
    else findTitleTagList c

/-- The child loop of `findTitleTag`. -/
def findTitleTagList : List Node → Option Node
  | [] => none
  | n :: ns =>
    match findTitleTag n with
    | some h => some h
    | none => findTitleTagList ns

end

mutual

/-- `Client.findMetaTags`: collect every `meta` element in preorder
(node before its children, children left to right). -/
def findMetaTags : Node → List Node
  | .mk t d a c =>
    (if t = NodeType.elementNode ∧ d = "meta" then [Node.mk t d a c] else []) ++
      findMetaTagsList c

/-- The child loop of `findMetaTags`. -/
def findMetaTagsList : List Node → List Node
  | [] => []
  | n :: ns => findMetaTags n ++ findMetaTagsList ns

end

/-- `Client.extractDescription`: scan the meta tags in order; skip tags with
fewer than two attributes; on the first tag whose first attribute is
`name=description`, `property=og:description` or `name=twitter:description`,
return the second attribute's value; otherwise `""`. -/
def extractDescription : List Node → String
  | [] => ""
  | m :: rest =>
    match m.attr with
    | a0 :: a1 :: _ =>
      if a0.key = "name" ∧ a0.val = "description" then a1.val
      else if a0.key = "property" ∧ a0.val = "og:description" then a1.val
      else if a0.key = "name" ∧ a0.val = "twitter:description" then a1.val
      else extractDescription rest
    | _ => extractDescription rest

/-- `Client.extractImage`: same scan, matching `property=og:image` then
`name=twitter:image` on the first attribute. -/
def extractImage : List Node → String
  | [] => ""
  | m :: rest =>
    match m.attr with
    | a0 :: a1 :: _ =>
      if a0.key = "property" ∧ a0.val = "og:image" then a1.val
      else if a0.key = "name" ∧ a0.val = "twitter:image" then a1.val
      else extractImage rest
    | _ => extractImage rest

/-- `Client.resolveImageURL`: empty stays empty; a value parsing as an
absolute URL is kept as-is; otherwise it is resolved against `baseURL`
(`base.Parse`), and on any parse failure the raw value is returned. -/
def resolveImageURL (imageURL baseURL : String) : String :=
  if imageURL = "" then ""
  else if (match NetURL.parse imageURL with
            | Except.ok parsed => parsed.isAbs
            | Except.error _ => false) then imageURL
  else
    match NetURL.parse baseURL with
    | Except.error _ => imageURL
    | Except.ok base =>
      match NetURL.parseRef base imageURL with
      | Except.error _ => imageURL
      | Except.ok resolved => NetURL.toString resolved

/-- The `SiteMeta` result record. -/
structure SiteMeta where
  Title : String := ""
  Description : String := ""
  Image : String := ""
  URL : String := ""
deriving Repr, DecidableEq

/-- `Client.parseSiteMeta`: build a `SiteMeta` from a parsed document and the
site URL.  No failure path: missing pieces leave fields empty. -/
def parseSiteMeta (doc : Node) (siteURL : String) : SiteMeta :=
  match findHeadTag doc with
  | none => { URL := siteURL }
  | some head =>
    { URL := siteURL,
      Title :=
        match findTitleTag head with
        | some t =>
          match t.children with
          | c :: _ => c.data
          | [] => ""
        | none => "",
      Description := extractDescription (findMetaTags head),
      Image :=
        if extractImage (findMetaTags head) ≠ "" then
          resolveImageURL (extractImage (findMetaTags head)) siteURL
        else "" }

/-- The error cases `Client.GetSiteMeta` can return: the empty-URL error, the
`invalid URL: %w` wrap of a `url.Parse` failure, and the
`failed to extract metadata with HTTP: %w` wrap of a static-fetch failure. -/
inductive GetError where
  | emptyURL
  | invalidURL (msg : String)
  | httpExtract (msg : String)
deriving Repr, DecidableEq

/-- `Client.GetSiteMeta`, with the two effectful fetch-and-parse pipelines
abstracted as oracles: `fetchHTML` is `Client.fetchHTML` (HTTP GET + HTML
parse) and `renderDOM` is `Client.renderDOMWithChrome` (browser render + HTML
parse); each yields a parsed document or a failure message.  The orchestration
logic — empty check, `url.Parse`, static fetch, description-gated fallback,
swallowed fallback failure — is translated from the Go source. -/
def GetSiteMeta (websiteURL : String)
    (fetchHTML renderDOM : String → Except String Node) : Except GetError SiteMeta :=
  if websiteURL = "" then Except.error GetError.emptyURL
  else
    match NetURL.parse websiteURL with
    | Except.error e => Except.error (GetError.invalidURL e)
    | Except.ok parsedURL =>
      match fetchHTML (NetURL.toString parsedURL) with
      | Except.error e => Except.error (GetError.httpExtract e)
      | Except.ok doc =>
        if (parseSiteMeta doc (NetURL.toString parsedURL)).Description = "" then
          match renderDOM (NetURL.toString parsedURL) with
          | Except.error _ => Except.ok (parseSiteMeta doc (NetURL.toString parsedURL))
          | Except.ok doc2 => Except.ok (parseSiteMeta doc2 (NetURL.toString parsedURL))
        else Except.ok (parseSiteMeta doc (NetURL.toString parsedURL))

/-! ## Spec-side selection predicates (for refinement comparison)

These two definitions follow the wording of the specification, not the code:
a single meta element resolves a description (resp. image) exactly when its
first attribute is one of the discriminator pairs, in which case the value is
its second attribute's value; an element with fewer than two attributes
resolves nothing.  Document-order scanning is then `List.findSome?`. -/

/-- Spec wording for description resolution of one meta element: the value of
the second attribute when the first attribute is `name=description`,
`property=og:description`, or `name=twitter:description`; nothing when the
element has fewer than two attributes or its first attribute matches no
pattern. -/
def descriptionOfMeta (m : Node) : Option String :=
  match m.attr with
  | a0 :: a1 :: _ =>
    if (a0.key = "name" ∧ a0.val = "description") ∨
        (a0.key = "property" ∧ a0.val = "og:description") ∨
        (a0.key = "name" ∧ a0.val = "twitter:description") then some a1.val
    else none
  | _ => none

/-- Spec wording for image resolution of one meta element: the value of the
second attribute when the first attribute is `property=og:image` or
`name=twitter:image`. -/
def imageOfMeta (m : Node) : Option String :=
  match m.attr with
  | a0 :: a1 :: _ =>
    if (a0.key = "property" ∧ a0.val = "og:image") ∨
        (a0.key = "name" ∧ a0.val = "twitter:image") then some a1.val
    else none
  | _ => none

/-! ## Concrete documents used by witnesses -/

/-- A static-fetch document: a title and an `og:image`, but no description. -/
def staticTestDoc : Node :=
  Node.mk NodeType.documentNode "" []
    [Node.mk NodeType.elementNode "html" []
      [Node.mk NodeType.elementNode "head" []
        [Node.mk NodeType.elementNode "title" [] [Node.mk NodeType.textNode "Static Title" [] []],
         Node.mk NodeType.elementNode "meta"
           [⟨"property", "og:image"⟩, ⟨"content", "/static.png"⟩] []]]]

/-- A rendered-fetch document: a description but no title and no image. -/
def renderedTestDoc : Node :=
  Node.mk NodeType.documentNode "" []
    [Node.mk NodeType.elementNode "html" []
      [Node.mk NodeType.elementNode "head" []
        [Node.mk NodeType.elementNode "meta"
          [⟨"name", "description"⟩, ⟨"content", "Rendered description"⟩] []]]]

/-- A document with a description whose title and image are empty. -/
def descOnlyTestDoc : Node :=
  Node.mk NodeType.documentNode "" []
    [Node.mk NodeType.elementNode "html" []
      [Node.mk NodeType.elementNode "head" []
        [Node.mk NodeType.elementNode "meta"
          [⟨"name", "description"⟩, ⟨"content", "Some description"⟩] []]]]

/-- A head-only document whose title text carries surrounding whitespace. -/
def spacedTitleTestDoc : Node :=
  Node.mk NodeType.documentNode "" []
    [Node.mk NodeType.elementNode "html" []
      [Node.mk NodeType.elementNode "head" []
        [Node.mk NodeType.elementNode "title" [] [Node.mk NodeType.textNode "  X  " [] []]]]]

/-! ## Helper lemmas -/

/-- The code's description scan equals the spec-side document-order scan. -/
theorem extractDescription_eq_findSome (l : List Node) :
    extractDescription l = (l.findSome? descriptionOfMeta).getD "" := by
  induction l with
  | nil => rfl
  | cons m rest ih =>
    rcases m with ⟨t, d, attr, ch⟩
    rcases attr with _ | ⟨a0, _ | ⟨a1, restA⟩⟩
    · simpa [extractDescription, List.findSome?, descriptionOfMeta, Node.attr] using ih
    · simpa [extractDescription, List.findSome?, descriptionOfMeta, Node.attr] using ih
    · by_cases h1 : a0.key = "name" ∧ a0.val = "description"
      · simp [extractDescription, List.findSome?, descriptionOfMeta, Node.attr, h1.1, h1.2]
      · by_cases h2 : a0.key = "property" ∧ a0.val = "og:description"
        · simp [extractDescription, List.findSome?, descriptionOfMeta, Node.attr,
            h2.1, h2.2, h1]
        · by_cases h3 : a0.key = "name" ∧ a0.val = "twitter:description"
          · simp [extractDescription, List.findSome?, descriptionOfMeta, Node.attr,
              h3.1, h3.2, h1, h2]
          · simpa [extractDescription, List.findSome?, descriptionOfMeta, Node.attr,
              h1, h2, h3] using ih

/-- The code's image scan equals the spec-side document-order scan. -/
theorem extractImage_eq_findSome (l : List Node) :
    extractImage l = (l.findSome? imageOfMeta).getD "" := by
  induction l with
  | nil => rfl
  | cons m rest ih =>
    rcases m with ⟨t, d, attr, ch⟩
    rcases attr with _ | ⟨a0, _ | ⟨a1, restA⟩⟩
    · simpa [extractImage, List.findSome?, imageOfMeta, Node.attr] using ih
    · simpa [extractImage, List.findSome?, imageOfMeta, Node.attr] using ih
    · by_cases h1 : a0.key = "property" ∧ a0.val = "og:image"
      · simp [extractImage, List.findSome?, imageOfMeta, Node.attr, h1.1, h1.2]
      · by_cases h2 : a0.key = "name" ∧ a0.val = "twitter:image"
        · simp [extractImage, List.findSome?, imageOfMeta, Node.attr, h2.1, h2.2, h1]
        · simpa [extractImage, List.findSome?, imageOfMeta, Node.attr, h1, h2] using ih

/-- `parseSiteMeta` always copies the site URL into the result. -/
theorem parseSiteMeta_URL (doc : Node) (u : String) : (parseSiteMeta doc u).URL = u := by
  unfold parseSiteMeta
  cases findHeadTag doc <;> rfl

/-! ## Claim theorems -/

/-- C2: for every parsed document, the resolved description is the value of
the second attribute of the first meta element — in document order, i.e. in
the preorder sequence `findMetaTags` collects below the head — whose first
attribute is `name=description`, `property=og:description` or
`name=twitter:description` (`descriptionOfMeta`); elements with fewer than
two attributes are skipped, a matching pair at position three or later is
never seen (only the first two attributes are inspected), and with no
matching element the description is empty. -/
theorem C2_description_resolution (doc : Node) (u : String) :
    (parseSiteMeta doc u).Description =
      match findHeadTag doc with
      | none => ""
      | some head => ((findMetaTags head).findSome? descriptionOfMeta).getD "" := by
  unfold parseSiteMeta
  cases hh : findHeadTag doc with
  | none => rfl
  | some head => exact extractDescription_eq_findSome _

/-- C7: the image selected for a parsed document is the value of the second
attribute of the first meta element in document order whose first attribute is
`property=og:image` or `name=twitter:image` (`imageOfMeta`), under the same
fewer-than-two-attributes skip and first-two-attribute-position constraint;
the selected value (when non-empty) is then passed through
`resolveImageURL`. -/
theorem C7_image_resolution (doc : Node) (u : String) :
    extractImage (findMetaTags doc) =
        ((findMetaTags doc).findSome? imageOfMeta).getD ""
    ∧ (parseSiteMeta doc u).Image =
        match findHeadTag doc with
        | none => ""
        | some head =>
          if ((findMetaTags head).findSome? imageOfMeta).getD "" ≠ "" then
            resolveImageURL (((findMetaTags head).findSome? imageOfMeta).getD "") u
          else "" := by
  refine ⟨extractImage_eq_findSome _, ?_⟩
  unfold parseSiteMeta
  cases hh : findHeadTag doc with
  | none => rfl
  | some head => simp [extractImage_eq_findSome]

/-- C10: when a meta element's first attribute matches any of the
discriminator patterns — `name=description`, `property=og:description` or
`name=twitter:description` for the description scan, `property=og:image` or
`name=twitter:image` for the image scan — the value returned is the second
attribute's value whatever that attribute's key is: the key in position one
is never inspected, so `[name=description, foo=Y]` resolves the description
to `Y` even though the value attribute is not named `content` (here `a1`
ranges over arbitrary attributes, including key `foo`). -/
theorem C10_second_attribute_key_ignored (t : NodeType) (d : String) (a0 a1 : Attribute)
    (restA : List Attribute) (ch : List Node) (tail : List Node) :
    ((a0.key = "name" ∧ a0.val = "description") ∨
        (a0.key = "property" ∧ a0.val = "og:description") ∨
        (a0.key = "name" ∧ a0.val = "twitter:description") →
      extractDescription (Node.mk t d (a0 :: a1 :: restA) ch :: tail) = a1.val)
    ∧ ((a0.key = "property" ∧ a0.val = "og:image") ∨
        (a0.key = "name" ∧ a0.val = "twitter:image") →
      extractImage (Node.mk t d (a0 :: a1 :: restA) ch :: tail) = a1.val) := by
  constructor
  · intro h
    rcases h with h | h | h <;> simp [extractDescription, Node.attr, h.1, h.2]
  · intro h
    rcases h with h | h <;> simp [extractImage, Node.attr, h.1, h.2]

/-- C10 witness: `[property=og:description, foo=Y]` resolves the description
to `Y` and `[name=twitter:image, foo=Z]` resolves the image to `Z`, although
the position-one attribute is named `foo` in both. -/
theorem C10_second_attribute_key_ignored_witness :
    extractDescription
        [Node.mk NodeType.elementNode "meta" [⟨"property", "og:description"⟩, ⟨"foo", "Y"⟩] []]
      = "Y"
    ∧ extractImage
        [Node.mk NodeType.elementNode "meta" [⟨"name", "twitter:image"⟩, ⟨"foo", "Z"⟩] []]
      = "Z" :=
  ⟨(C10_second_attribute_key_ignored NodeType.elementNode "meta" ⟨"property", "og:description"⟩
      ⟨"foo", "Y"⟩ [] [] []).1 (Or.inr (Or.inl ⟨rfl, rfl⟩)),
    (C10_second_attribute_key_ignored NodeType.elementNode "meta" ⟨"name", "twitter:image"⟩
      ⟨"foo", "Z"⟩ [] [] []).2 (Or.inr ⟨rfl, rfl⟩)⟩

/-- C6: `parseSiteMeta` never fails — it is a total function whose result
always carries the input site URL in its `URL` field; a document with no
`head` element yields a record with only `URL` populated; and every
successful `GetSiteMeta` run returns a record whose `URL` is the normalized
(`NetURL.toString` after `NetURL.parse`) form of the input URL. -/
theorem C6_resolve_total (doc : Node) (u : String) :
    (parseSiteMeta doc u).URL = u
    ∧ (findHeadTag doc = none → parseSiteMeta doc u = { URL := u })
    ∧ (∀ w f r m, GetSiteMeta w f r = Except.ok m →
        ∃ pu, NetURL.parse w = Except.ok pu ∧ m.URL = NetURL.toString pu) := by
  refine ⟨parseSiteMeta_URL doc u, ?_, ?_⟩
  · intro h
    unfold parseSiteMeta
    rw [h]
  · intro w f r m hm
    unfold GetSiteMeta at hm
    by_cases hw : w = ""
    · rw [if_pos hw] at hm
      cases hm
    · rw [if_neg hw] at hm
      cases hp : NetURL.parse w with
      | error e =>
        rw [hp] at hm
        cases hm
      | ok pu =>
        simp only [hp] at hm
        refine ⟨pu, rfl, ?_⟩
        cases hf : f (NetURL.toString pu) with
        | error e =>
          rw [hf] at hm
          cases hm
        | ok doc1 =>
          simp only [hf] at hm
          by_cases hd : (parseSiteMeta doc1 (NetURL.toString pu)).Description = ""
          · rw [if_pos hd] at hm
            cases hr : r (NetURL.toString pu) with
            | error e =>
              simp only [hr, Except.ok.injEq] at hm
              subst hm
              exact parseSiteMeta_URL _ _
            | ok doc2 =>
              simp only [hr, Except.ok.injEq] at hm
              subst hm
              exact parseSiteMeta_URL _ _
          · rw [if_neg hd] at hm
            simp only [Except.ok.injEq] at hm
            subst hm
            exact parseSiteMeta_URL _ _

/-- C6 witness: a bare text node has no head, so only the URL is populated. -/
theorem C6_resolve_total_witness :
    parseSiteMeta (Node.mk NodeType.textNode "hello" [] []) "https://example.com"
      = { URL := "https://example.com" } :=
  (C6_resolve_total (Node.mk NodeType.textNode "hello" [] []) "https://example.com").2.1 rfl

/-- C9: when the document has a head, the resolved title is exactly the data
of the first child of the first `title` element found by depth-first search
(`findTitleTag`), with no trimming or normalization applied; a title element
with no child — or no title element at all — leaves the title empty. -/
theorem C9_title_extraction (doc : Node) (u : String) (head : Node)
    (hh : findHeadTag doc = some head) :
    (∀ t c cs, findTitleTag head = some t → t.children = c :: cs →
        (parseSiteMeta doc u).Title = c.data)
    ∧ (∀ t, findTitleTag head = some t → t.children = [] →
        (parseSiteMeta doc u).Title = "")
    ∧ (findTitleTag head = none → (parseSiteMeta doc u).Title = "") := by
  unfold parseSiteMeta
  simp only [hh]
  refine ⟨?_, ?_, ?_⟩
  · intro t c cs ht hc
    simp only [ht, hc]
  · intro t ht hc
    simp only [ht, hc]
  · intro ht
    simp only [ht]

/-- C9 witness: a title text with surrounding whitespace is kept verbatim. -/
theorem C9_title_extraction_witness :
    (parseSiteMeta spacedTitleTestDoc "https://example.com").Title = "  X  " :=
  (C9_title_extraction spacedTitleTestDoc "https://example.com"
      (Node.mk NodeType.elementNode "head" []
        [Node.mk NodeType.elementNode "title" [] [Node.mk NodeType.textNode "  X  " [] []]])
      rfl).1
    (Node.mk NodeType.elementNode "title" [] [Node.mk NodeType.textNode "  X  " [] []])
    (Node.mk NodeType.textNode "  X  " [] []) [] rfl rfl

/-- C1 counterexample: the scheme-missing string `"http//example.com"` is
accepted by `url.Parse` (it parses as a relative URL with that path), so
`GetSiteMeta` does not fail with the invalid-URL error — it proceeds to the
static-fetch stage, whose failure it reports instead (the fetch oracle's
message surfaces, proving the fetch was issued). -/
theorem C1_counterexample :
    GetSiteMeta "http//example.com" (fun _ => Except.error "no network")
        (fun _ => Except.error "no render")
      = Except.error (GetError.httpExtract "no network")
    ∧ NetURL.parse "http//example.com" = Except.ok { path := "http//example.com" } :=
  ⟨rfl, rfl⟩

/-- C1 (amended): `GetSiteMeta` fails before any fetch exactly for the empty
string (with the empty-URL error) and for inputs `url.Parse` rejects (with the
invalid-URL error) — the result there is the same for every fetch oracle, so
no request is issued; but a string merely missing a scheme, such as
`"http//example.com"`, parses successfully and is not rejected at the
validation stage. -/
theorem C1_invalid_url_before_fetch (f r : String → Except String Node) :
    GetSiteMeta "" f r = Except.error GetError.emptyURL
    ∧ (∀ s e, s ≠ "" → NetURL.parse s = Except.error e →
        GetSiteMeta s f r = Except.error (GetError.invalidURL e)) := by
  refine ⟨rfl, ?_⟩
  intro s e hs hp
  unfold GetSiteMeta
  rw [if_neg hs, hp]

/-- C1 witness: `"://example.com"` is a string `url.Parse` rejects, and
`GetSiteMeta` surfaces the invalid-URL error for it. -/
theorem C1_invalid_url_before_fetch_witness :
    GetSiteMeta "://example.com" (fun _ => Except.error "a") (fun _ => Except.error "b")
      = Except.error (GetError.invalidURL "missing protocol scheme") :=
  (C1_invalid_url_before_fetch (fun _ => Except.error "a") (fun _ => Except.error "b")).2
    "://example.com" "missing protocol scheme" (by decide) rfl

/-- C3: when the static fetch succeeds with an empty description and the
rendered fetch also succeeds, `GetSiteMeta` returns exactly the metadata
parsed from the rendered document — the static result is discarded wholesale,
including any title/image it had found (the result is
`parseSiteMeta renderedDoc`, with no reference to `staticDoc`). -/
theorem C3_fallback_replaces_static (websiteURL : String)
    (f r : String → Except String Node) (pu : NetURL.URL) (staticDoc renderedDoc : Node)
    (hw : websiteURL ≠ "") (hp : NetURL.parse websiteURL = Except.ok pu)
    (hf : f (NetURL.toString pu) = Except.ok staticDoc)
    (hd : (parseSiteMeta staticDoc (NetURL.toString pu)).Description = "")
    (hr : r (NetURL.toString pu) = Except.ok renderedDoc) :
    GetSiteMeta websiteURL f r
      = Except.ok (parseSiteMeta renderedDoc (NetURL.toString pu)) := by
  unfold GetSiteMeta
  rw [if_neg hw]
  simp only [hp, hf, hr, if_pos hd]

/-- C3 witness: the static document has a title and an image but no
description; the rendered document has only a description.  The final result
is exactly the rendered parse — empty title and image, rendered
description. -/
theorem C3_fallback_replaces_static_witness :
    GetSiteMeta "https://example.com" (fun _ => Except.ok staticTestDoc)
        (fun _ => Except.ok renderedTestDoc)
      = Except.ok { Description := "Rendered description", URL := "https://example.com" } := by
  have h := C3_fallback_replaces_static "https://example.com"
    (fun _ => Except.ok staticTestDoc) (fun _ => Except.ok renderedTestDoc)
    { scheme := "https", host := "example.com" } staticTestDoc renderedTestDoc
    (by decide) rfl rfl rfl rfl
  exact h.trans rfl

/-- C4: when the static fetch succeeds with an empty description and the
rendered fetch fails, `GetSiteMeta` swallows the failure and returns the
static result with no error; and the fallback is gated solely on the
description — a static result with a non-empty description is returned
unchanged for every rendered oracle, whatever its title or image fields
hold. -/
theorem C4_fallback_failure_swallowed (websiteURL : String)
    (f r : String → Except String Node) (pu : NetURL.URL) (staticDoc : Node) (e : String)
    (hw : websiteURL ≠ "") (hp : NetURL.parse websiteURL = Except.ok pu)
    (hf : f (NetURL.toString pu) = Except.ok staticDoc)
    (hd : (parseSiteMeta staticDoc (NetURL.toString pu)).Description = "")
    (hr : r (NetURL.toString pu) = Except.error e) :
    GetSiteMeta websiteURL f r = Except.ok (parseSiteMeta staticDoc (NetURL.toString pu))
    ∧ (∀ doc2 r2, (parseSiteMeta doc2 (NetURL.toString pu)).Description ≠ "" →
        GetSiteMeta websiteURL (fun _ => Except.ok doc2) r2
          = Except.ok (parseSiteMeta doc2 (NetURL.toString pu))) := by
  constructor
  · unfold GetSiteMeta
    rw [if_neg hw]
    simp only [hp, hf, hr, if_pos hd]
  · intro doc2 r2 hd2
    unfold GetSiteMeta
    rw [if_neg hw]
    simp only [hp, if_neg hd2]

/-- C4 witness: a static document with title and image but no description is
returned successfully when the render fails; and a static document with a
description is returned without consulting the (failing) rendered oracle. -/
theorem C4_fallback_failure_swallowed_witness :
    GetSiteMeta "https://example.com" (fun _ => Except.ok staticTestDoc)
        (fun _ => Except.error "render failed")
      = Except.ok { Title := "Static Title", Image := "https://example.com/static.png",
                    URL := "https://example.com" }
    ∧ GetSiteMeta "https://example.com" (fun _ => Except.ok descOnlyTestDoc)
        (fun _ => Except.error "render failed")
      = Except.ok { Description := "Some description", URL := "https://example.com" } := by
  have h := C4_fallback_failure_swallowed "https://example.com"
    (fun _ => Except.ok staticTestDoc) (fun _ => Except.error "render failed")
    { scheme := "https", host := "example.com" } staticTestDoc "render failed"
    (by decide) rfl rfl rfl rfl
  refine ⟨h.1.trans rfl, ?_⟩
  exact (h.2 descOnlyTestDoc (fun _ => Except.error "render failed") (by decide)).trans rfl

/-- C8: when the static fetch itself fails (the oracle covers the network,
status-code and HTML-parse failure paths of `fetchHTML`), `GetSiteMeta`
propagates the wrapped error immediately; the rendered oracle `r` is
universally quantified and absent from the result, so the fallback is never
attempted. -/
theorem C8_static_failure_propagates (websiteURL : String)
    (f r : String → Except String Node) (pu : NetURL.URL) (e : String)
    (hw : websiteURL ≠ "") (hp : NetURL.parse websiteURL = Except.ok pu)
    (hf : f (NetURL.toString pu) = Except.error e) :
    GetSiteMeta websiteURL f r = Except.error (GetError.httpExtract e) := by
  unfold GetSiteMeta
  rw [if_neg hw]
  simp only [hp, hf]

/-- C8 witness: a failing static fetch surfaces its error even when the
rendered oracle would have succeeded. -/
theorem C8_static_failure_propagates_witness :
    GetSiteMeta "https://example.com" (fun _ => Except.error "status 404")
        (fun _ => Except.ok renderedTestDoc)
      = Except.error (GetError.httpExtract "status 404") :=
  C8_static_failure_propagates "https://example.com" (fun _ => Except.error "status 404")
    (fun _ => Except.ok renderedTestDoc) { scheme := "https", host := "example.com" }
    "status 404" (by decide) rfl rfl

/-- C5: image URL normalization — an empty value stays empty; a value parsing
as an absolute URL (one with a scheme) is kept verbatim; a relative value is
resolved against the source URL by `ResolveReference` (so `"/og.png"` against
`"https://example.com/page"` gives `"https://example.com/og.png"`); and when
resolution fails because the base or the value itself does not parse, the raw
value is returned unchanged, never dropped. -/
theorem C5_image_url_normalization (img base : String) (e1 e2 : String) :
    (img = "" → resolveImageURL img base = "")
    ∧ (∀ p, NetURL.parse img = Except.ok p → p.isAbs = true →
        resolveImageURL img base = img)
    ∧ (∀ p b, img ≠ "" → NetURL.parse img = Except.ok p → p.isAbs = false →
        NetURL.parse base = Except.ok b →
        resolveImageURL img base = NetURL.toString (NetURL.resolveReference b p))
    ∧ (img ≠ "" → NetURL.parse base = Except.error e1 → resolveImageURL img base = img)
    ∧ (img ≠ "" → NetURL.parse img = Except.error e2 → resolveImageURL img base = img)
    ∧ resolveImageURL "/og.png" "https://example.com/page" = "https://example.com/og.png"
    ∧ resolveImageURL "https://cdn.example.com/a.png" "https://example.com/page"
        = "https://cdn.example.com/a.png" := by
  refine ⟨?_, ?_, ?_, ?_, ?_, rfl, rfl⟩
  · intro h
    simp [resolveImageURL, h]
  · intro p hp habs
    by_cases himg : img = ""
    · subst himg
      simp [resolveImageURL]
    · simp [resolveImageURL, himg, hp, habs]
  · intro p b hne hp habs hb
    simp [resolveImageURL, hne, hp, habs, hb, NetURL.parseRef]
  · intro hne hb
    unfold resolveImageURL
    rw [if_neg hne]
    split
    · rfl
    · simp [hb]
  · intro hne hp
    simp [resolveImageURL, hne, hp, NetURL.parseRef]
    cases NetURL.parse base <;> rfl

/-- C5 witness: the four regimes at concrete inputs — empty value, absolute
value kept, relative value resolved against the base, and an unparseable base
falling back to the raw value. -/
theorem C5_image_url_normalization_witness :
    resolveImageURL "" "https://example.com/page" = ""
    ∧ resolveImageURL "https://cdn.example.com/a.png" "https://example.com/page"
        = "https://cdn.example.com/a.png"
    ∧ resolveImageURL "/og.png" "https://example.com/page"
        = NetURL.toString (NetURL.resolveReference
            { scheme := "https", host := "example.com", path := "/page" } { path := "/og.png" })
    ∧ resolveImageURL "relative.png" "://bad" = "relative.png" := by
  refine ⟨?_, ?_, ?_, ?_⟩
  · exact (C5_image_url_normalization "" "https://example.com/page" "x" "x").1 rfl
  · exact (C5_image_url_normalization "https://cdn.example.com/a.png"
      "https://example.com/page" "x" "x").2.1
      { scheme := "https", host := "cdn.example.com", path := "/a.png" } rfl rfl
  · exact (C5_image_url_normalization "/og.png" "https://example.com/page" "x" "x").2.2.1
      { path := "/og.png" } { scheme := "https", host := "example.com", path := "/page" }
      (by decide) rfl rfl rfl
  · exact (C5_image_url_normalization "relative.png" "://bad"
      "missing protocol scheme" "x").2.2.2.1 (by decide) rfl

end SiteMetaModel
